import Mathlib

/-!
Shallow embedding of `src/main.rs` (FrancescoXX/rust-api): a minimal HTTP
CRUD server over a `users` table.  Request text is modelled as a list of
characters; the database as a list of rows plus a SERIAL counter; the
postgres driver calls as pure functions on that state.
-/

/-- Request and response text, modelling Rust `&str` / `String`. -/
abbrev Str := List Char

/-- Convert a Lean string literal to the `Str` model. -/
def str (s : String) : Str := s.data

/-- Model of the Rust `User` struct (`id`, `name`, `email`). -/
structure User where
  id : Int
  name : Str
  email : Str
deriving DecidableEq, Repr

/-- Model of the Rust `NewUser` struct (`name`, `email`). -/
structure NewUser where
  name : Str
  email : Str
deriving DecidableEq, Repr

/-- The `users` table (`id SERIAL PRIMARY KEY, name VARCHAR NOT NULL,
email VARCHAR UNIQUE NOT NULL`): its rows plus the SERIAL counter that
generates the next id. -/
structure Db where
  rows : List User
  nextId : Int
deriving DecidableEq, Repr

/-- Model of Rust `str::split(char)`: splits at every occurrence of the
separator, keeping empty pieces, always returning at least one piece. -/
def splitChar (sep : Char) : Str → List Str
  | [] => [[]]
  | c :: cs =>
    if c = sep then [] :: splitChar sep cs
    else
      match splitChar sep cs with
      | [] => [[c]]
      | s :: ss => (c :: s) :: ss

/-- ASCII whitespace, the fragment of Rust `char::is_whitespace` the
requests in play can contain. -/
def isWs (c : Char) : Bool := c = ' ' || c = '\t' || c = '\n' || c = '\r'

/-- Model of `request.split('/').nth(2).unwrap_or_default()
.split_whitespace().next().unwrap_or_default()` from `fn get_id`:
the third `/`-separated piece of the request, with leading whitespace
skipped and truncated at the next whitespace. -/
def get_id (request : Str) : Str :=
  (((splitChar '/' request).getD 2 []).dropWhile isWs).takeWhile (fun c => !(isWs c))

/-- Model of Rust `request.split("\r\n\r\n")` specialised to the separator
used in the source: splits at each non-overlapping occurrence of
`\r\n\r\n`, scanning left to right, always returning at least one piece. -/
def splitCrlf2 : Str → List Str
  | '\r' :: '\n' :: '\r' :: '\n' :: rest => [] :: splitCrlf2 rest
  | c :: rest =>
    match splitCrlf2 rest with
    | [] => [[c]]
    | s :: ss => (c :: s) :: ss
  | [] => [[]]

/-- Model of `request.split("\r\n\r\n").last().unwrap_or("")`: the text of
the request after its last blank line. -/
def requestBody (request : Str) : Str := (splitCrlf2 request).getLastD []

/-- Lower bound of Rust `i32`. -/
def i32Min : Int := -(2 ^ 31)

/-- Upper bound of Rust `i32`. -/
def i32Max : Int := 2 ^ 31 - 1

/-- Error text of Rust `ParseIntError` for an empty input. -/
def errEmpty : Str := str "cannot parse integer from empty string"

/-- Error text of Rust `ParseIntError` for a non-digit character. -/
def errInvalidDigit : Str := str "invalid digit found in string"

/-- Error text of Rust `ParseIntError` on positive overflow. -/
def errPosOverflow : Str := str "number too large to fit in target type"

/-- Error text of Rust `ParseIntError` on negative overflow. -/
def errNegOverflow : Str := str "number too small to fit in target type"

/-- Digit loop of Rust `str::parse::<i32>`: accumulates left to right,
failing at the first non-digit character or at the first
multiply-and-add that leaves the `i32` range. -/
def parseI32Digits (isNeg : Bool) : Str → Int → Except Str Int
  | [], acc => Except.ok acc
  | c :: cs, acc =>
    if '0' ≤ c ∧ c ≤ '9' then
      let acc2 : Int :=
        if isNeg then acc * 10 - ((c.toNat : Int) - 48) else acc * 10 + ((c.toNat : Int) - 48)
      if acc2 < i32Min ∨ i32Max < acc2 then
        Except.error (if isNeg then errNegOverflow else errPosOverflow)
      else parseI32Digits isNeg cs acc2
    else Except.error errInvalidDigit

instance {e a : Type} [DecidableEq e] [DecidableEq a] : DecidableEq (Except e a) := fun x y =>
  match x, y with
  | .ok u, .ok v => if h : u = v then isTrue (by simp [h]) else isFalse (by simp [h])
  | .error u, .error v => if h : u = v then isTrue (by simp [h]) else isFalse (by simp [h])
  | .ok _, .error _ => isFalse (by simp)
  | .error _, .ok _ => isFalse (by simp)

/-- Model of Rust `str::parse::<i32>()`: an optional sign followed by at
least one decimal digit, the value within `i32` bounds; on failure the
`ParseIntError` display text. -/
def parse_i32 (s : Str) : Except Str Int :=
  match s with
  | [] => Except.error errEmpty
  | '+' :: rest => if rest = [] then Except.error errInvalidDigit else parseI32Digits false rest 0
  | '-' :: rest => if rest = [] then Except.error errInvalidDigit else parseI32Digits true rest 0
  | _ => parseI32Digits false s 0

/-- Decimal rendering of an integer, as Rust `format!` displays an `i32`. -/
def intToStr (i : Int) : Str :=
  if i < 0 then '-' :: Nat.toDigits 10 i.natAbs else Nat.toDigits 10 i.natAbs

/-- JSON escaping of one character, as `serde_json` renders the strings in
play (quote, backslash and the common control characters; other
characters pass through). -/
def jsonEscapeChar (c : Char) : Str :=
  if c = '"' then ['\\', '"']
  else if c = '\\' then ['\\', '\\']
  else if c = '\n' then ['\\', 'n']
  else if c = '\r' then ['\\', 'r']
  else if c = '\t' then ['\\', 't']
  else [c]

/-- JSON string literal for `s`: quotes around the escaped text. -/
def jsonStr (s : Str) : Str := '"' :: (s.map jsonEscapeChar).flatten ++ ['"']

/-- Model of `serde_json::to_string` on a `NewUser`: fields in declaration
order, no spaces. -/
def serialize_new_user (u : NewUser) : Str :=
  '\x7b' :: str "\"name\":" ++ jsonStr u.name ++ str ",\"email\":" ++ jsonStr u.email ++ ['\x7d']

/-- Model of `serde_json::to_string` on a `User`: fields in declaration
order, no spaces. -/
def serialize_user (u : User) : Str :=
  '\x7b' :: str "\"id\":" ++ intToStr u.id ++ str ",\"name\":" ++ jsonStr u.name
    ++ str ",\"email\":" ++ jsonStr u.email ++ ['\x7d']

/-- Model of `serde_json::to_string` on a `Vec<User>`. -/
def serialize_users (l : List User) : Str :=
  '[' :: (List.intercalate (str ",") (l.map serialize_user)) ++ [']']

/-- Drop leading JSON whitespace. -/
def skipWs (s : Str) : Str := s.dropWhile isWs

/-- Parse the tail of a JSON string literal (after the opening quote):
the decoded content and the rest of the input after the closing quote. -/
def parseJsonStringAux : Str → Option (Str × Str)
  | [] => none
  | '\\' :: e :: rest =>
    (match e with
     | '"' => (parseJsonStringAux rest).map (fun p => ('"' :: p.1, p.2))
     | '\\' => (parseJsonStringAux rest).map (fun p => ('\\' :: p.1, p.2))
     | '/' => (parseJsonStringAux rest).map (fun p => ('/' :: p.1, p.2))
     | 'n' => (parseJsonStringAux rest).map (fun p => ('\n' :: p.1, p.2))
     | 'r' => (parseJsonStringAux rest).map (fun p => ('\r' :: p.1, p.2))
     | 't' => (parseJsonStringAux rest).map (fun p => ('\t' :: p.1, p.2))
     | _ => none)
  | '"' :: rest => some ([], rest)
  | c :: rest => (parseJsonStringAux rest).map (fun p => (c :: p.1, p.2))

/-- Expect one character (after whitespace) and return the rest. -/
def expectChar (c : Char) (s : Str) : Option Str :=
  match skipWs s with
  | d :: rest => if d = c then some rest else none
  | [] => none

/-- Parse a quoted JSON string after optional whitespace. -/
def parseQuoted (s : Str) : Option (Str × Str) :=
  match skipWs s with
  | '"' :: rest => parseJsonStringAux rest
  | _ => none

/-- Parse one `"key": "value"` pair. -/
def parsePair (s : Str) : Option (Str × Str × Str) := do
  let (k, r1) ← parseQuoted s
  let r2 ← expectChar ':' r1
  let (v, r3) ← parseQuoted r2
  some (k, v, r3)

/-- Parse a comma-separated sequence of string pairs; the fuel bounds the
recursion and is instantiated with the input length. -/
def parsePairsAux : Nat → Str → Option (List (Str × Str) × Str)
  | 0, _ => none
  | fuel + 1, s => do
    let (k, v, r) ← parsePair s
    match expectChar ',' r with
    | some r2 => (parsePairsAux fuel r2).map (fun p => ((k, v) :: p.1, p.2))
    | none => some ([(k, v)], r)

/-- Exactly one value stored under `k`; duplicates are rejected, matching
the duplicate-field error of `serde_json`. -/
def lookupUnique (k : Str) (ps : List (Str × Str)) : Option Str :=
  match ps.filter (fun p => p.1 = k) with
  | [p] => some p.2
  | _ => none

/-- Model of `serde_json::from_str::<NewUser>` on the bodies in play: a
JSON object of string-valued fields, requiring `name` and `email` each
exactly once (unknown fields ignored, as `serde` derives by default),
rejecting everything else. -/
def deserialize_new_user (body : Str) : Option NewUser := do
  let r1 ← expectChar '\x7b' body
  let (pairs, r2) ← parsePairsAux (body.length + 1) r1
  let r3 ← expectChar '\x7d' r2
  if skipWs r3 = [] then
    match lookupUnique (str "name") pairs, lookupUnique (str "email") pairs with
    | some n, some e => some ⟨n, e⟩
    | _, _ => none
  else none

/-- Model of `client.query_one("SELECT * FROM users WHERE id = $1")`:
`Ok` exactly when the table holds exactly one row with that id. -/
def query_one_user (db : Db) (n : Int) : Option User :=
  match db.rows.filter (fun u => u.id == n) with
  | [u] => some u
  | _ => none

/-- Model of `client.execute("INSERT INTO users (name, email) VALUES ...")`:
fails on a violation of the UNIQUE constraint on `email`, otherwise
appends a row with the SERIAL-generated id. -/
def execute_insert (db : Db) (nu : NewUser) : Option Db :=
  if db.rows.any (fun u => u.email == nu.email) then none
  else some ⟨db.rows ++ [⟨db.nextId, nu.name, nu.email⟩], db.nextId + 1⟩

/-- Model of `client.execute("UPDATE users SET name=$2, email=$3 WHERE id=$1")`:
fails when a row would be updated to an email another row already holds
(UNIQUE violation), otherwise rewrites the matching rows and reports how
many rows matched. -/
def execute_update (db : Db) (n : Int) (nu : NewUser) : Option (Db × Nat) :=
  if db.rows.any (fun u => u.id == n) && db.rows.any (fun u => u.id != n && u.email == nu.email)
  then none
  else some (⟨db.rows.map (fun u => if u.id == n then ⟨u.id, nu.name, nu.email⟩ else u), db.nextId⟩,
             db.rows.countP (fun u => u.id == n))

/-- Model of `client.execute("DELETE FROM users WHERE id = $1")`: removes
the matching rows and reports how many were removed. -/
def execute_delete (db : Db) (n : Int) : Db × Nat :=
  (⟨db.rows.filter (fun u => u.id != n), db.nextId⟩, db.rows.countP (fun u => u.id == n))

/-- Status line `HTTP/1.1 200 OK` with the JSON content-type header. -/
def s200 : Str := str "HTTP/1.1 200 OK\r\nContent-Type: application/json\r\n\r\n"

/-- Status line `HTTP/1.1 400 BAD REQUEST`. -/
def s400 : Str := str "HTTP/1.1 400 BAD REQUEST\r\n\r\n"

/-- Status line `HTTP/1.1 404 NOT FOUND`. -/
def s404 : Str := str "HTTP/1.1 404 NOT FOUND\r\n\r\n"

/-- Status line `HTTP/1.1 500 INTERNAL SERVER ERROR`. -/
def s500 : Str := str "HTTP/1.1 500 INTERNAL SERVER ERROR\r\n\r\n"

/-- Placeholder for the driver error display that
`format!("Error updating user: \x7b\x7d", e)` would append. -/
def updateDriverErr : Str := str "database error"

/-- Model of `fn handle_get_user_request`: status line, body and the
(unchanged) database state. -/
def handle_get_user_request (db : Db) (request : Str) : Str × Str × Db :=
  let id := get_id request
  match parse_i32 id with
  | Except.ok idInt =>
    match query_one_user db idInt with
    | some u => (s200, serialize_user u, db)
    | none => (s404, str "User with ID " ++ id ++ str " not found", db)
  | Except.error _ => (s400, str "Invalid ID: " ++ id, db)

/-- Model of `fn handle_get_all_request`. -/
def handle_get_all_request (db : Db) (_request : Str) : Str × Str × Db :=
  (s200, serialize_users db.rows, db)

/-- Model of `fn deserialize_user_from_request_body`. -/
def deserialize_user_from_request_body (request : Str) : Option NewUser :=
  deserialize_new_user (requestBody request)

/-- Model of `fn handle_post_request`: deserialize the body, insert, and
echo the raw request body on success. -/
def handle_post_request (db : Db) (request : Str) : Str × Str × Db :=
  match deserialize_user_from_request_body request with
  | some user =>
    match execute_insert db user with
    | none => (s500, str "Failed to insert user into database", db)
    | some db2 => (s200, requestBody request, db2)
  | none => (s400, str "Invalid request body", db)

/-- Model of `fn handle_update_request`: body first, then id, then the
UPDATE, whose row count is discarded. -/
def handle_update_request (db : Db) (request : Str) : Str × Str × Db :=
  let id := get_id request
  match deserialize_new_user (requestBody request) with
  | some new_user =>
    match parse_i32 id with
    | Except.ok idInt =>
      match execute_update db idInt new_user with
      | some (db2, _) => (s200, serialize_new_user new_user, db2)
      | none => (s500, str "Error updating user: " ++ updateDriverErr, db)
    | Except.error e => (s400, str "Invalid ID: " ++ id ++ str ". Error: " ++ e, db)
  | none => (s400, str "Invalid request body", db)

/-- Model of `fn handle_delete_request`: the DELETE always runs once the id
parses; 200 with the JSON of the id string on exactly one affected row,
else 404 naming the parsed integer. -/
def handle_delete_request (db : Db) (request : Str) : Str × Str × Db :=
  let id := get_id request
  match parse_i32 id with
  | Except.ok idInt =>
    let r := execute_delete db idInt
    if r.2 = 1 then (s200, jsonStr id, r.1)
    else (s404, str "User with ID " ++ intToStr idInt ++ str " not found", r.1)
  | Except.error _ => (s400, str "Invalid ID: " ++ id, db)

/-- The dispatch `match` of `fn handle_client`: prefix tests in source
order, else the 404 response. -/
def handleRequest (db : Db) (request : Str) : Str × Str × Db :=
  if (str "GET /users/").isPrefixOf request then handle_get_user_request db request
  else if (str "GET /users").isPrefixOf request then handle_get_all_request db request
  else if (str "POST /users").isPrefixOf request then handle_post_request db request
  else if (str "PUT /users").isPrefixOf request then handle_update_request db request
  else if (str "DELETE /users").isPrefixOf request then handle_delete_request db request
  else (s404, str "404 Not Found", db)

/-- Model of `fn handle_client`: one read of at most 1024 bytes from the
connection, dispatch, and the concatenated `status_line ++ content`
written back, paired with the database state afterwards. -/
def handle_client (db : Db) (input : Str) : Str × Db :=
  let request := input.take 1024
  let r := handleRequest db request
  (r.1 ++ r.2.1, r.2.2)

theorem splitChar_ne_nil (sep : Char) (l : Str) : splitChar sep l ≠ [] := by
  induction l with
  | nil => simp [splitChar]
  | cons c cs ih =>
    simp only [splitChar]
    split
    · simp
    · cases h : splitChar sep cs with
      | nil => simp
      | cons s ss => simp

theorem splitChar_append (sep : Char) (l1 l2 : Str) (h : sep ∉ l1) :
    splitChar sep (l1 ++ sep :: l2) = l1 :: splitChar sep l2 := by
  induction l1 with
  | nil => simp [splitChar]
  | cons c cs ih =>
    have hc : ¬c = sep := by rintro rfl; exact h (List.mem_cons_self _ _)
    have hcs : sep ∉ cs := fun hm => h (List.mem_cons_of_mem _ hm)
    rw [List.cons_append]
    simp only [splitChar, hc, if_false]
    rw [ih hcs]

theorem splitChar_headD (sep : Char) (w : Str) :
    (splitChar sep w).headD [] = w.takeWhile (fun c => !(c == sep)) := by
  induction w with
  | nil => rfl
  | cons c cs ih =>
    by_cases hc : c = sep
    · subst hc
      simp [splitChar, List.takeWhile_cons]
    · simp only [splitChar, hc, if_false, List.takeWhile_cons]
      have hb : (c == sep) = false := by simp [hc]
      cases h : splitChar sep cs with
      | nil => exact absurd h (splitChar_ne_nil sep cs)
      | cons s ss =>
        have hs : s = cs.takeWhile (fun c => !(c == sep)) := by
          rw [← ih, h]; rfl
        simp [hb, hs]

theorem takeWhile_append_all (p : Char → Bool) (N r : Str) (h : ∀ c ∈ N, p c = true) :
    (N ++ r).takeWhile p = N ++ r.takeWhile p := by
  induction N with
  | nil => rfl
  | cons c cs ih =>
    rw [List.cons_append, List.takeWhile_cons, h c (List.mem_cons_self _ _), List.cons_append,
      ih (fun d hd => h d (List.mem_cons_of_mem _ hd))]
    simp

theorem token_of_head (N : Str) (hne : N ≠ []) (hws : ∀ c ∈ N, isWs c = false) :
    (N.dropWhile isWs).takeWhile (fun c => !(isWs c)) = N := by
  cases N with
  | nil => exact absurd rfl hne
  | cons n0 N1 =>
    have h0 : isWs n0 = false := hws n0 (List.mem_cons_self _ _)
    rw [List.dropWhile_cons, h0]
    simp only [Bool.false_eq_true, if_false]
    have : (n0 :: N1) ++ ([] : Str) = n0 :: N1 := by simp
    rw [← this, takeWhile_append_all _ _ _ (fun c hc => by simp [hws c (by simpa using hc)])]
    rfl

theorem token_of_append (N z : Str) (hne : N ≠ []) (hws : ∀ c ∈ N, isWs c = false) :
    ((N ++ ' ' :: z).dropWhile isWs).takeWhile (fun c => !(isWs c)) = N := by
  cases N with
  | nil => exact absurd rfl hne
  | cons n0 N1 =>
    have h0 : isWs n0 = false := hws n0 (List.mem_cons_self _ _)
    rw [List.cons_append, List.dropWhile_cons, h0]
    simp only [Bool.false_eq_true, if_false]
    rw [← List.cons_append,
      takeWhile_append_all _ _ _ (fun c hc => by simp [hws c hc])]
    simp [List.takeWhile_cons, isWs]

/-- On a path-style request `m/users/N z` whose id segment `N` ends at a
space, `get_id` extracts exactly `N`. -/
theorem get_id_path (m N z : Str) (hm : '/' ∉ m) (hN : '/' ∉ N)
    (hne : N ≠ []) (hws : ∀ c ∈ N, isWs c = false) :
    get_id (m ++ '/' :: (str "users" ++ '/' :: (N ++ ' ' :: z))) = N := by
  unfold get_id
  have husers : '/' ∉ str "users" := by decide
  rw [splitChar_append _ _ _ hm, splitChar_append _ _ _ husers]
  simp only [List.getD_cons_succ, List.getD_cons_zero]
  have hseg : (splitChar '/' (N ++ ' ' :: z)).getD 0 []
      = (N ++ ' ' :: z).takeWhile (fun c => !(c == '/')) := by
    cases h : splitChar '/' (N ++ ' ' :: z) with
    | nil => exact absurd h (splitChar_ne_nil _ _)
    | cons s ss =>
      have := splitChar_headD '/' (N ++ ' ' :: z)
      rw [h] at this
      simpa using this
  rw [hseg, takeWhile_append_all _ _ _ (fun c hc => by
      have hc' : c ≠ '/' := fun h => hN (h ▸ hc)
      simp [hc']),
    List.takeWhile_cons]
  have : ((' ' : Char) == '/') = false := by decide
  rw [this]
  simp only [Bool.not_false, if_true]
  exact token_of_append N _ hne hws

/-- On a path-style request `m/users/N/z` whose id segment `N` ends at a
further slash, `get_id` extracts exactly `N`. -/
theorem get_id_path_slash (m N z : Str) (hm : '/' ∉ m) (hN : '/' ∉ N)
    (hne : N ≠ []) (hws : ∀ c ∈ N, isWs c = false) :
    get_id (m ++ '/' :: (str "users" ++ '/' :: (N ++ '/' :: z))) = N := by
  unfold get_id
  have husers : '/' ∉ str "users" := by decide
  rw [splitChar_append _ _ _ hm, splitChar_append _ _ _ husers,
    splitChar_append _ _ _ hN]
  simp only [List.getD_cons_succ, List.getD_cons_zero]
  exact token_of_head N hne hws

/-- C1: the claim is false as stated.  For the query-string form
`PUT /users?id=5`, `get_id` splits the whole request on `/` and lands on
the `1.1` of `HTTP/1.1`, so the update handler answers 400 Invalid ID and
leaves the table (which holds user 5) untouched, instead of updating
user 5. -/
theorem C1_counterexample :
    get_id (str "PUT /users?id=5 HTTP/1.1\r\n\r\n\x7b\"name\":\"b\",\"email\":\"b@x\"\x7d")
      = str "1.1"
    ∧ handle_update_request ⟨[⟨5, str "a", str "a@x"⟩], 6⟩
        (str "PUT /users?id=5 HTTP/1.1\r\n\r\n\x7b\"name\":\"b\",\"email\":\"b@x\"\x7d")
      = (s400, str "Invalid ID: 1.1. Error: invalid digit found in string",
         ⟨[⟨5, str "a", str "a@x"⟩], 6⟩) := by decide

/-- C1 (amended): for path-style request lines `PUT /users/N ...` and
`DELETE /users/N ...` with `N` the decimal representation of an `i32`,
the handlers extract `N` as the target user id — the delete handler then
removes exactly the rows with id `N`.  The query-string form of the
claim is refuted by `C1_counterexample`. -/
theorem C1_amended_path_id_extraction (db : Db) (N z : Str) (n : Int)
    (hN : '/' ∉ N) (hne : N ≠ []) (hws : ∀ c ∈ N, isWs c = false)
    (hparse : parse_i32 N = Except.ok n) :
    get_id (str "PUT /users/" ++ N ++ ' ' :: z) = N ∧
    get_id (str "DELETE /users/" ++ N ++ ' ' :: z) = N ∧
    (handle_delete_request db (str "DELETE /users/" ++ N ++ ' ' :: z)).2.2.rows
      = db.rows.filter (fun u => u.id != n) := by
  have h1 : get_id (str "PUT /users/" ++ N ++ ' ' :: z) = N :=
    get_id_path (str "PUT ") N z (by decide) hN hne hws
  have h2 : get_id (str "DELETE /users/" ++ N ++ ' ' :: z) = N :=
    get_id_path (str "DELETE ") N z (by decide) hN hne hws
  refine ⟨h1, h2, ?_⟩
  simp only [handle_delete_request, h2, hparse, execute_delete]
  split <;> rfl

/-- C1 witness: on a concrete table holding users 5 and 6,
`DELETE /users/5` removes exactly user 5. -/
theorem C1_amended_path_id_extraction_witness :
    get_id (str "DELETE /users/5 HTTP/1.1") = str "5" ∧
    (handle_delete_request ⟨[⟨5, str "a", str "a@x"⟩, ⟨6, str "b", str "b@x"⟩], 7⟩
        (str "DELETE /users/5 HTTP/1.1")).2.2.rows = [⟨6, str "b", str "b@x"⟩] :=
  have h := C1_amended_path_id_extraction ⟨[⟨5, str "a", str "a@x"⟩, ⟨6, str "b", str "b@x"⟩], 7⟩
    (str "5") (str "HTTP/1.1") 5 (by decide) (by decide) (by decide) (by decide)
  ⟨h.2.1, h.2.2⟩

/-- C2: for `GET /users/X`: if `X` does not parse as an `i32` the response
is `HTTP/1.1 400 BAD REQUEST` with body `Invalid ID: X`; if it parses but
no row has that id, the response is `HTTP/1.1 404 NOT FOUND` with body
`User with ID X not found`; the table is unchanged either way. -/
theorem C2_get_user_error_responses (db : Db) (X z : Str)
    (hX : '/' ∉ X) (hne : X ≠ []) (hws : ∀ c ∈ X, isWs c = false) :
    (∀ e, parse_i32 X = Except.error e →
       handle_get_user_request db (str "GET /users/" ++ X ++ ' ' :: z)
         = (s400, str "Invalid ID: " ++ X, db)) ∧
    (∀ n : Int, parse_i32 X = Except.ok n → (∀ u ∈ db.rows, u.id ≠ n) →
       handle_get_user_request db (str "GET /users/" ++ X ++ ' ' :: z)
         = (s404, str "User with ID " ++ X ++ str " not found", db)) := by
  have hid : get_id (str "GET /users/" ++ X ++ ' ' :: z) = X :=
    get_id_path (str "GET ") X z (by decide) hX hne hws
  constructor
  · intro e he
    simp only [handle_get_user_request, hid, he]
  · intro n hn hnone
    have hq : query_one_user db n = none := by
      unfold query_one_user
      have hf : db.rows.filter (fun u => u.id == n) = [] := by
        simp only [List.filter_eq_nil_iff]
        intro u hu
        simp [hnone u hu]
      rw [hf]
    simp only [handle_get_user_request, hid, hn, hq]

/-- C2 witness: on a table holding only user 1, `GET /users/abc` yields
400 `Invalid ID: abc` and `GET /users/9` yields 404
`User with ID 9 not found`. -/
theorem C2_get_user_error_responses_witness :
    handle_get_user_request ⟨[⟨1, str "a", str "a@x"⟩], 2⟩ (str "GET /users/abc HTTP/1.1")
      = (s400, str "Invalid ID: abc", ⟨[⟨1, str "a", str "a@x"⟩], 2⟩)
    ∧ handle_get_user_request ⟨[⟨1, str "a", str "a@x"⟩], 2⟩ (str "GET /users/9 HTTP/1.1")
      = (s404, str "User with ID 9 not found", ⟨[⟨1, str "a", str "a@x"⟩], 2⟩) := by
  constructor
  · exact (C2_get_user_error_responses ⟨[⟨1, str "a", str "a@x"⟩], 2⟩ (str "abc")
      (str "HTTP/1.1") (by decide) (by decide) (by decide)).1 errInvalidDigit (by decide)
  · exact (C2_get_user_error_responses ⟨[⟨1, str "a", str "a@x"⟩], 2⟩ (str "9")
      (str "HTTP/1.1") (by decide) (by decide) (by decide)).2 9 (by decide) (by decide)

/-- With distinct ids (the PRIMARY KEY invariant), at most one row
matches any id. -/
theorem countP_id_le_one (rows : List User) (n : Int)
    (hnodup : (rows.map User.id).Nodup) :
    rows.countP (fun u => u.id == n) ≤ 1 := by
  have h1 : rows.countP (fun u => u.id == n) = (rows.map User.id).count n := by
    rw [List.count_eq_countP, List.countP_map]
    rfl
  rw [h1]
  exact List.nodup_iff_count_le_one.mp hnodup n

/-- C3: for `DELETE /users/N` with `N` rendering an `i32` and distinct ids
in the table: exactly one matching row gives 200 with the JSON
serialization of the id string; otherwise (zero rows) 404 with
`User with ID N not found` and the table is unchanged. -/
theorem C3_delete_row_count_responses (db : Db) (X z : Str) (n : Int)
    (hX : '/' ∉ X) (hne : X ≠ []) (hws : ∀ c ∈ X, isWs c = false)
    (hparse : parse_i32 X = Except.ok n)
    (hnodup : (db.rows.map User.id).Nodup) :
    (db.rows.countP (fun u => u.id == n) = 1 →
      handle_delete_request db (str "DELETE /users/" ++ X ++ ' ' :: z)
        = (s200, jsonStr X, ⟨db.rows.filter (fun u => u.id != n), db.nextId⟩)) ∧
    (db.rows.countP (fun u => u.id == n) ≠ 1 →
      handle_delete_request db (str "DELETE /users/" ++ X ++ ' ' :: z)
        = (s404, str "User with ID " ++ intToStr n ++ str " not found", db)) := by
  have hid : get_id (str "DELETE /users/" ++ X ++ ' ' :: z) = X :=
    get_id_path (str "DELETE ") X z (by decide) hX hne hws
  constructor
  · intro hc
    simp only [handle_delete_request, hid, hparse, execute_delete, hc, if_true]
  · intro hc
    have hc0 : db.rows.countP (fun u => u.id == n) = 0 := by
      have := countP_id_le_one db.rows n hnodup
      omega
    have hfil : db.rows.filter (fun u => u.id != n) = db.rows := by
      rw [List.filter_eq_self]
      intro u hu
      have := List.countP_eq_zero.mp hc0 u hu
      simpa using this
    simp only [handle_delete_request, hid, hparse, execute_delete, hc, hfil, if_false]

/-- C3 witness: deleting user 5 from a two-user table answers 200 with
body `"5"`; deleting the absent user 9 answers 404 and leaves the table
as it was. -/
theorem C3_delete_row_count_responses_witness :
    handle_delete_request ⟨[⟨5, str "a", str "a@x"⟩, ⟨6, str "b", str "b@x"⟩], 7⟩
        (str "DELETE /users/5 HTTP/1.1")
      = (s200, str "\"5\"", ⟨[⟨6, str "b", str "b@x"⟩], 7⟩)
    ∧ handle_delete_request ⟨[⟨5, str "a", str "a@x"⟩, ⟨6, str "b", str "b@x"⟩], 7⟩
        (str "DELETE /users/9 HTTP/1.1")
      = (s404, str "User with ID 9 not found",
         ⟨[⟨5, str "a", str "a@x"⟩, ⟨6, str "b", str "b@x"⟩], 7⟩) := by
  constructor
  · exact (C3_delete_row_count_responses ⟨[⟨5, str "a", str "a@x"⟩, ⟨6, str "b", str "b@x"⟩], 7⟩
      (str "5") (str "HTTP/1.1") 5 (by decide) (by decide) (by decide) (by decide)
      (by decide)).1 (by decide)
  · exact (C3_delete_row_count_responses ⟨[⟨5, str "a", str "a@x"⟩, ⟨6, str "b", str "b@x"⟩], 7⟩
      (str "9") (str "HTTP/1.1") 9 (by decide) (by decide) (by decide) (by decide)
      (by decide)).2 (by decide)

/-- C4: a POST whose body (text after the last blank line) does not
deserialize as `\x7bname, email\x7d` answers 400 `Invalid request body` with the
table untouched; a deserializable body whose INSERT fails answers 500
`Failed to insert user into database`, also leaving the table untouched. -/
theorem C4_post_error_responses (db : Db) (request : Str) :
    (deserialize_new_user (requestBody request) = none →
       handle_post_request db request = (s400, str "Invalid request body", db)) ∧
    (∀ u, deserialize_new_user (requestBody request) = some u →
       execute_insert db u = none →
       handle_post_request db request
         = (s500, str "Failed to insert user into database", db)) := by
  constructor
  · intro h
    simp only [handle_post_request, deserialize_user_from_request_body, h]
  · intro u h hins
    simp only [handle_post_request, deserialize_user_from_request_body, h, hins]

/-- C4 witness: a malformed body yields the 400 response; a valid body
whose email already exists in the table yields the 500 response. -/
theorem C4_post_error_responses_witness :
    handle_post_request ⟨[], 1⟩ (str "POST /users HTTP/1.1\r\n\r\nnot json")
      = (s400, str "Invalid request body", ⟨[], 1⟩)
    ∧ handle_post_request ⟨[⟨1, str "a", str "e@x"⟩], 2⟩
        (str "POST /users HTTP/1.1\r\n\r\n\x7b\"name\":\"b\",\"email\":\"e@x\"\x7d")
      = (s500, str "Failed to insert user into database", ⟨[⟨1, str "a", str "e@x"⟩], 2⟩) := by
  constructor
  · exact (C4_post_error_responses ⟨[], 1⟩
      (str "POST /users HTTP/1.1\r\n\r\nnot json")).1 (by decide)
  · exact (C4_post_error_responses ⟨[⟨1, str "a", str "e@x"⟩], 2⟩
      (str "POST /users HTTP/1.1\r\n\r\n\x7b\"name\":\"b\",\"email\":\"e@x\"\x7d")).2
      ⟨str "b", str "e@x"⟩ (by decide) (by decide)

/-- C10: `get_id` takes the third `/`-separated piece of the request and
its first whitespace token: `GET /users/N/extra ...` yields `N`, so the
extra path segments are ignored and the request behaves exactly like
`GET /users/N`; `GET /users/ HTTP/1.1` yields `HTTP`, whose `i32` parse
fails, giving the 400 response. -/
theorem C10_get_id_segment_behavior (db : Db) (N : Str)
    (hN : '/' ∉ N) (hne : N ≠ []) (hws : ∀ c ∈ N, isWs c = false) :
    get_id (str "GET /users/" ++ N ++ str "/extra HTTP/1.1") = N ∧
    handle_get_user_request db (str "GET /users/" ++ N ++ str "/extra HTTP/1.1")
      = handle_get_user_request db (str "GET /users/" ++ N ++ str " HTTP/1.1") ∧
    get_id (str "GET /users/ HTTP/1.1") = str "HTTP" ∧
    handle_get_user_request db (str "GET /users/ HTTP/1.1")
      = (s400, str "Invalid ID: HTTP", db) := by
  have h1 : get_id (str "GET /users/" ++ N ++ str "/extra HTTP/1.1") = N :=
    get_id_path_slash (str "GET ") N (str "extra HTTP/1.1") (by decide) hN hne hws
  have h2 : get_id (str "GET /users/" ++ N ++ str " HTTP/1.1") = N :=
    get_id_path (str "GET ") N (str "HTTP/1.1") (by decide) hN hne hws
  have h3 : get_id (str "GET /users/ HTTP/1.1") = str "HTTP" := by decide
  refine ⟨h1, by simp only [handle_get_user_request, h1, h2], h3, ?_⟩
  have hp : parse_i32 (str "HTTP") = Except.error errInvalidDigit := by decide
  have hb : str "Invalid ID: " ++ str "HTTP" = str "Invalid ID: HTTP" := by decide
  simp only [handle_get_user_request, h3, hp, hb]

/-- C10 witness: with user 7 in the table, `GET /users/7/extra HTTP/1.1`
answers exactly like `GET /users/7 HTTP/1.1`. -/
theorem C10_get_id_segment_behavior_witness :
    get_id (str "GET /users/7/extra HTTP/1.1") = str "7" ∧
    handle_get_user_request ⟨[⟨7, str "g", str "g@x"⟩], 8⟩ (str "GET /users/7/extra HTTP/1.1")
      = handle_get_user_request ⟨[⟨7, str "g", str "g@x"⟩], 8⟩ (str "GET /users/7 HTTP/1.1") :=
  have h := C10_get_id_segment_behavior ⟨[⟨7, str "g", str "g@x"⟩], 8⟩ (str "7")
    (by decide) (by decide) (by decide)
  ⟨h.1, h.2.1⟩

/-- A prefix that is incomparable with a known prefix of the request is
not itself a prefix of the request. -/
theorem isPrefixOf_false_of_incomparable (p q request : Str) (hq : q <+: request)
    (h1 : ¬p <+: q) (h2 : ¬q <+: p) : p.isPrefixOf request = false := by
  rw [Bool.eq_false_iff]
  intro hp
  have hp' : p <+: request := by simpa using hp
  rcases List.prefix_or_prefix_of_prefix hp' hq with h | h
  · exact h1 h
  · exact h2 h

/-- C5: dispatch is by string-prefix match on the raw request text, tested
in source order: `GET /users/` requests go to the get-one handler,
`GET /users` requests that do not continue with `/` go to the get-all
handler, `POST /users`, `PUT /users` and `DELETE /users` requests go to
their handlers, and a request matching none of the five prefixes gets
`HTTP/1.1 404 NOT FOUND` with body `404 Not Found`. -/
theorem C5_dispatch_prefix_order (db : Db) (request : Str) :
    ((str "GET /users/").isPrefixOf request = true →
       handleRequest db request = handle_get_user_request db request) ∧
    ((str "GET /users/").isPrefixOf request = false →
     (str "GET /users").isPrefixOf request = true →
       handleRequest db request = handle_get_all_request db request) ∧
    ((str "POST /users").isPrefixOf request = true →
       handleRequest db request = handle_post_request db request) ∧
    ((str "PUT /users").isPrefixOf request = true →
       handleRequest db request = handle_update_request db request) ∧
    ((str "DELETE /users").isPrefixOf request = true →
       handleRequest db request = handle_delete_request db request) ∧
    ((str "GET /users/").isPrefixOf request = false →
     (str "GET /users").isPrefixOf request = false →
     (str "POST /users").isPrefixOf request = false →
     (str "PUT /users").isPrefixOf request = false →
     (str "DELETE /users").isPrefixOf request = false →
       handleRequest db request = (s404, str "404 Not Found", db)) := by
  refine ⟨?_, ?_, ?_, ?_, ?_, ?_⟩
  · intro h1
    simp only [handleRequest, h1, if_true]
  · intro h1 h2
    simp only [handleRequest, h1, h2, if_true, Bool.false_eq_true, if_false]
  · intro h3
    have hq : str "POST /users" <+: request := by simpa using h3
    have h1 := isPrefixOf_false_of_incomparable (str "GET /users/") _ request hq
      (by decide) (by decide)
    have h2 := isPrefixOf_false_of_incomparable (str "GET /users") _ request hq
      (by decide) (by decide)
    simp only [handleRequest, h1, h2, h3, if_true, Bool.false_eq_true, if_false]
  · intro h4
    have hq : str "PUT /users" <+: request := by simpa using h4
    have h1 := isPrefixOf_false_of_incomparable (str "GET /users/") _ request hq
      (by decide) (by decide)
    have h2 := isPrefixOf_false_of_incomparable (str "GET /users") _ request hq
      (by decide) (by decide)
    have h3 := isPrefixOf_false_of_incomparable (str "POST /users") _ request hq
      (by decide) (by decide)
    simp only [handleRequest, h1, h2, h3, h4, if_true, Bool.false_eq_true, if_false]
  · intro h5
    have hq : str "DELETE /users" <+: request := by simpa using h5
    have h1 := isPrefixOf_false_of_incomparable (str "GET /users/") _ request hq
      (by decide) (by decide)
    have h2 := isPrefixOf_false_of_incomparable (str "GET /users") _ request hq
      (by decide) (by decide)
    have h3 := isPrefixOf_false_of_incomparable (str "POST /users") _ request hq
      (by decide) (by decide)
    have h4 := isPrefixOf_false_of_incomparable (str "PUT /users") _ request hq
      (by decide) (by decide)
    simp only [handleRequest, h1, h2, h3, h4, h5, if_true, Bool.false_eq_true, if_false]
  · intro h1 h2 h3 h4 h5
    simp only [handleRequest, h1, h2, h3, h4, h5, Bool.false_eq_true, if_false]

/-- C5 witness: a `GET /users/…` request reaches the get-one handler, a
bare `GET /users` request reaches the get-all handler, and an unmatched
request line gets the literal 404 response. -/
theorem C5_dispatch_prefix_order_witness :
    handleRequest ⟨[], 1⟩ (str "GET /users/3 HTTP/1.1")
      = handle_get_user_request ⟨[], 1⟩ (str "GET /users/3 HTTP/1.1")
    ∧ handleRequest ⟨[], 1⟩ (str "GET /users HTTP/1.1")
      = handle_get_all_request ⟨[], 1⟩ (str "GET /users HTTP/1.1")
    ∧ handleRequest ⟨[], 1⟩ (str "OPTIONS /x HTTP/1.1")
      = (s404, str "404 Not Found", ⟨[], 1⟩) := by
  refine ⟨?_, ?_, ?_⟩
  · exact (C5_dispatch_prefix_order ⟨[], 1⟩ (str "GET /users/3 HTTP/1.1")).1 (by decide)
  · exact (C5_dispatch_prefix_order ⟨[], 1⟩ (str "GET /users HTTP/1.1")).2.1
      (by decide) (by decide)
  · exact (C5_dispatch_prefix_order ⟨[], 1⟩ (str "OPTIONS /x HTTP/1.1")).2.2.2.2.2
      (by decide) (by decide) (by decide) (by decide) (by decide)

/-- Take of a replicated list. -/
theorem take_replicate_min (a : Char) (n m : Nat) :
    (List.replicate m a).take n = List.replicate (min n m) a := by
  induction n generalizing m with
  | zero => simp
  | succ k ih =>
    cases m with
    | zero => simp
    | succ j =>
      rw [List.replicate_succ, List.take_succ_cons, ih j, Nat.succ_min_succ,
        List.replicate_succ]

/-- C7: the connection is read once into a 1024-byte buffer, so the
response and the database state depend only on the first 1024 bytes of
the incoming request: inputs agreeing on those bytes are handled
identically. -/
theorem C7_single_bounded_read (db : Db) (i1 i2 : Str)
    (h : i1.take 1024 = i2.take 1024) :
    handle_client db i1 = handle_client db i2 := by
  unfold handle_client
  rw [h]

/-- C7 witness: two inputs of 1100 and 1200 repeated characters agree on
their first 1024 bytes and are handled identically. -/
theorem C7_single_bounded_read_witness :
    handle_client ⟨[], 1⟩ (List.replicate 1100 'a')
      = handle_client ⟨[], 1⟩ (List.replicate 1200 'a') :=
  C7_single_bounded_read ⟨[], 1⟩ _ _ (by
    rw [take_replicate_min, take_replicate_min]
    norm_num)

/-- C8: a PUT whose id parses and whose body deserializes answers 200 with
the serialized `NewUser` even when no row has that id — the affected-row
count of the UPDATE is never inspected, so the nonexistent target is not
turned into a 404. -/
theorem C8_update_zero_rows_still_200 (db : Db) (request : Str) (n : Int) (nu : NewUser)
    (hparse : parse_i32 (get_id request) = Except.ok n)
    (hbody : deserialize_new_user (requestBody request) = some nu)
    (hnone : ∀ u ∈ db.rows, u.id ≠ n) :
    handle_update_request db request = (s200, serialize_new_user nu, db) := by
  have hany : db.rows.any (fun u => u.id == n) = false := by
    rw [List.any_eq_false]
    intro u hu
    simp [hnone u hu]
  have hmap : db.rows.map (fun u => if u.id == n then (⟨u.id, nu.name, nu.email⟩ : User) else u)
      = db.rows := by
    have hcong := List.map_congr_left (l := db.rows)
      (f := fun u => if u.id == n then (⟨u.id, nu.name, nu.email⟩ : User) else u) (g := id)
      (fun u hu => by simp [hnone u hu])
    rw [hcong, List.map_id]
  have hupd : execute_update db n nu
      = some (⟨db.rows, db.nextId⟩, db.rows.countP (fun u => u.id == n)) := by
    unfold execute_update
    rw [hany, hmap]
    simp
  simp only [handle_update_request, hbody, hparse, hupd]

/-- C8 witness: a PUT targeting id 5 on a table holding only id 3 answers
200 with the serialized body and leaves the table unchanged. -/
theorem C8_update_zero_rows_still_200_witness :
    handle_update_request ⟨[⟨3, str "c", str "c@x"⟩], 4⟩
        (str "PUT /users/5 HTTP/1.1\r\n\r\n\x7b\"name\":\"b\",\"email\":\"b@x\"\x7d")
      = (s200, serialize_new_user ⟨str "b", str "b@x"⟩, ⟨[⟨3, str "c", str "c@x"⟩], 4⟩) :=
  C8_update_zero_rows_still_200 ⟨[⟨3, str "c", str "c@x"⟩], 4⟩
    (str "PUT /users/5 HTTP/1.1\r\n\r\n\x7b\"name\":\"b\",\"email\":\"b@x\"\x7d")
    5 ⟨str "b", str "b@x"⟩ (by decide) (by decide) (by decide)

/-- C9: on a successful POST the response body is the raw request text
after the last `\r\n\r\n`, echoed verbatim — in particular it is a fixed
function of the request alone, so the server-generated id of the new row
never appears in it. -/
theorem C9_post_echoes_raw_body (db : Db) (request : Str) (nu : NewUser) (db2 : Db)
    (hbody : deserialize_user_from_request_body request = some nu)
    (hins : execute_insert db nu = some db2) :
    handle_post_request db request = (s200, requestBody request, db2) := by
  simp only [handle_post_request, hbody, hins]

/-- C9 witness: the created row gets id 41, yet the 200 body is just the
request text after the blank line, which does not mention 41. -/
theorem C9_post_echoes_raw_body_witness :
    handle_post_request ⟨[], 41⟩ (str "POST /users HTTP/1.1\r\n\r\n\x7b\"name\":\"Jo\",\"email\":\"j@x\"\x7d")
      = (s200, str "\x7b\"name\":\"Jo\",\"email\":\"j@x\"\x7d",
         ⟨[⟨41, str "Jo", str "j@x"⟩], 42⟩) :=
  C9_post_echoes_raw_body ⟨[], 41⟩
    (str "POST /users HTTP/1.1\r\n\r\n\x7b\"name\":\"Jo\",\"email\":\"j@x\"\x7d")
    ⟨str "Jo", str "j@x"⟩ ⟨[⟨41, str "Jo", str "j@x"⟩], 42⟩ (by decide) (by decide)

/-- C6: the claim is false as stated.  A POST whose JSON body carries an
empty `name` is accepted and stored: the handler answers 200 and the
table afterwards holds a user whose name is the empty string — no write
path enforces non-emptiness (the schema only says NOT NULL). -/
theorem C6_counterexample :
    handle_post_request ⟨[], 1⟩
        (str "POST /users HTTP/1.1\r\n\r\n\x7b\"name\":\"\",\"email\":\"e@x\"\x7d")
      = (s200, str "\x7b\"name\":\"\",\"email\":\"e@x\"\x7d", ⟨[⟨1, [], str "e@x"⟩], 2⟩)
    ∧ (handle_post_request ⟨[], 1⟩
        (str "POST /users HTTP/1.1\r\n\r\n\x7b\"name\":\"\",\"email\":\"e@x\"\x7d")).2.2.rows.map
        User.name = [[]] := by decide

/-- C6 (amended): the write handlers store the deserialized `name` field
verbatim, empty or not: a successful POST appends exactly
`⟨nextId, name, email⟩`, and a successful PUT rewrites the matching rows
to exactly the provided `name` and `email`.  The only name invariant is
presence (NOT NULL), not non-emptiness. -/
theorem C6_amended_name_stored_verbatim (db : Db) (request : Str) (nu : NewUser) (db2 : Db)
    (hbody : deserialize_user_from_request_body request = some nu)
    (hins : execute_insert db nu = some db2) :
    (handle_post_request db request).2.2.rows
      = db.rows ++ [⟨db.nextId, nu.name, nu.email⟩] ∧
    (∀ n db3 c, parse_i32 (get_id request) = Except.ok n →
       execute_update db n nu = some (db3, c) →
       (handle_update_request db request).2.2.rows
         = db.rows.map (fun u => if u.id == n then ⟨u.id, nu.name, nu.email⟩ else u)) := by
  constructor
  · have hrows : db2.rows = db.rows ++ [⟨db.nextId, nu.name, nu.email⟩] := by
      unfold execute_insert at hins
      split at hins
      · cases hins
      · cases hins
        rfl
    simp only [handle_post_request, hbody, hins]
    exact hrows
  · intro n db3 c hparse hupd
    have hrows : db3.rows
        = db.rows.map (fun u => if u.id == n then ⟨u.id, nu.name, nu.email⟩ else u) := by
      unfold execute_update at hupd
      split at hupd
      · cases hupd
      · cases hupd
        rfl
    have hbody' : deserialize_new_user (requestBody request) = some nu := hbody
    simp only [handle_update_request, hbody', hparse, hupd]
    exact hrows

/-- C6 witness: a POST with name `Jo` appends exactly that row. -/
theorem C6_amended_name_stored_verbatim_witness :
    (handle_post_request ⟨[⟨1, str "a", str "a@x"⟩], 2⟩
        (str "POST /users HTTP/1.1\r\n\r\n\x7b\"name\":\"Jo\",\"email\":\"j@x\"\x7d")).2.2.rows
      = [⟨1, str "a", str "a@x"⟩, ⟨2, str "Jo", str "j@x"⟩] :=
  (C6_amended_name_stored_verbatim ⟨[⟨1, str "a", str "a@x"⟩], 2⟩
    (str "POST /users HTTP/1.1\r\n\r\n\x7b\"name\":\"Jo\",\"email\":\"j@x\"\x7d")
    ⟨str "Jo", str "j@x"⟩ ⟨[⟨1, str "a", str "a@x"⟩, ⟨2, str "Jo", str "j@x"⟩], 3⟩
    (by decide) (by decide)).1
